import Mathlib

/-!
Verification of the threading bootstrap and coordination core declared in
src/threading.h (Julia runtime threading header).  The header declares the
data model (jl_threadarg_t, jl_all_tls_states, thread_init_done,
jl_interrupt_handler, jl_interrupt_handler_condition, jl_global_defer_signal)
and the worker entry points (jl_threadfun, jl_parallel_gc_threadfun,
jl_concurrent_gc_threadfun, jl_init_threadtls); the function bodies are not
part of this repository, so their behaviour is modelled from the spec, while
the declared types and the global/atomic nature of the declared objects are
taken from the header itself.
-/

namespace Threading

/-- A logical task identity, standing for a jl_task_t pointer; `Option Task`
models a possibly-NULL jl_task_t pointer. -/
abbrev Task := Nat

/-- The Interrupt Router state, matching the three process-wide globals
declared in threading.h: `_Atomic(jl_task_t*) jl_interrupt_handler` (NULL
modelled as `none`), `uintptr_t jl_interrupt_handler_condition`, and
`_Atomic(int) jl_global_defer_signal`.  Note the header declares exactly one
slot and exactly one defer counter for the whole process. -/
structure InterruptRouter where
  jl_interrupt_handler : Option Task
  jl_interrupt_handler_condition : Nat
  jl_global_defer_signal : Nat
deriving Repr, DecidableEq

/-- The router state at process start: no target, condition 0, defer-count 0. -/
def routerInit : InterruptRouter := ⟨none, 0, 0⟩

/-- Modelled from the spec: `request_interrupt(target_task, condition_value)`
publishes a new interrupt target and condition (condition written first, then
the target with release ordering); the body is not in src/, only the globals
it writes are declared there. -/
def request_interrupt (t : Task) (c : Nat) (s : InterruptRouter) : InterruptRouter :=
  { s with jl_interrupt_handler_condition := c, jl_interrupt_handler := some t }

/-- Modelled from the spec: `check_and_consume()` — if the currently running
task matches the stored target and defer-count is 0, atomically clears the
target and returns the condition value; otherwise returns nothing.  The body
is not in src/. -/
def check_and_consume (current : Task) (s : InterruptRouter) :
    Option Nat × InterruptRouter :=
  if s.jl_interrupt_handler = some current ∧ s.jl_global_defer_signal = 0 then
    (some s.jl_interrupt_handler_condition, { s with jl_interrupt_handler := none })
  else
    (none, s)

/-- Modelled from the spec: `defer_interrupts()` increments the defer counter.
The header declares the counter as the single global
`_Atomic(int) jl_global_defer_signal`. -/
def defer_interrupts (s : InterruptRouter) : InterruptRouter :=
  { s with jl_global_defer_signal := s.jl_global_defer_signal + 1 }

/-- Modelled from the spec: `resume_interrupts()` decrements the defer counter. -/
def resume_interrupts (s : InterruptRouter) : InterruptRouter :=
  { s with jl_global_defer_signal := s.jl_global_defer_signal - 1 }

/-- `defer_interrupts` as performed by a given thread.  In the header the
counter is the one global `jl_global_defer_signal`, so the calling thread's
identity selects no counter: every caller increments the same global. -/
def defer_interrupts_by (_caller : Nat) (s : InterruptRouter) : InterruptRouter :=
  defer_interrupts s

/-- `resume_interrupts` as performed by a given thread; as with
`defer_interrupts_by`, the caller identity selects no counter. -/
def resume_interrupts_by (_caller : Nat) (s : InterruptRouter) : InterruptRouter :=
  resume_interrupts s

/-- The defer-count as seen by a given thread.  The header declares a single
global `_Atomic(int) jl_global_defer_signal` and no per-thread counter, so
every thread's defer-count denotes the same global. -/
def defer_count_of (_tid : Nat) (s : InterruptRouter) : Nat :=
  s.jl_global_defer_signal

/-- Number of interrupts pending in the router (the single slot holds at most
one target). -/
def pendingCount (s : InterruptRouter) : Nat :=
  if s.jl_interrupt_handler.isSome then 1 else 0

/-! ## Thread-Local State Registry and startup descriptors -/

/-- The int16_t value range, the type of the `tid` field of `jl_threadarg_t`
and of the parameter of `jl_init_threadtls` in threading.h. -/
def int16_range (n : Int) : Prop := -32768 ≤ n ∧ n < 32768

instance (n : Int) : Decidable (int16_range n) := by
  unfold int16_range; infer_instance

/-- The private per-thread runtime state block (jl_ptls_t target), per the
spec ThreadSlot: the thread index and a liveness flag.  A value of this type
stands for a fully-constructed block. -/
structure ThreadState where
  tid : Int
  live : Bool
deriving Repr, DecidableEq

/-- Modelled from the spec: `jl_init_threadtls(tid)` (declared in threading.h
with body not in src/) constructs the calling worker's private state block
from its thread index. -/
def jl_init_threadtls (tid : Int) : ThreadState :=
  { tid := tid, live := true }

/-- The startup descriptor from threading.h:
`struct _jl_threadarg_t { int16_t tid; uv_barrier_t *barrier; void *arg; }`.
The tid carries its int16_t range; barrier is the identity of the shared
startup barrier object and arg the opaque role payload. -/
structure jl_threadarg_t where
  tid : Int
  tid_in_range : int16_range tid
  barrier : Nat
  arg : Nat

/-- The Thread-Local State Registry: the process-wide table behind
`_Atomic(jl_ptls_t*) jl_all_tls_states`, mapping thread index to the owning
worker's published state block (none = NULL, not yet initialized), plus the
next index to hand out. -/
structure Registry where
  jl_all_tls_states : Nat → Option ThreadState
  next_tid : Nat

/-- The registry at process start: every slot NULL, next index 0. -/
def registryInit : Registry := ⟨fun _ => none, 0⟩

/-- Modelled from the spec: `allocate_slot()` reserves the next thread index
(dense, 0-based, never reused) and returns it with the grown registry. -/
def allocate_slot (r : Registry) : Nat × Registry :=
  (r.next_tid, { r with next_tid := r.next_tid + 1 })

/-- Modelled from the spec: `initialize_self(index, state)` — the worker whose
index this is publishes its fully-constructed state block (built by
`jl_init_threadtls`) into its slot with a release-ordered write. -/
def init_self (i : Nat) (r : Registry) : Registry :=
  { r with jl_all_tls_states :=
      fun j => if j = i then some (jl_init_threadtls (Int.ofNat i))
               else r.jl_all_tls_states j }

/-- Modelled from the spec: `lookup(index)` — read-only, callable from any
thread at any time; returns NULL (none) when the slot is not yet initialized. -/
def lookup (i : Nat) (r : Registry) : Option ThreadState :=
  r.jl_all_tls_states i

/-- A registry operation: a slot allocation by the spawner, or a worker
publishing its own state. -/
inductive RegOp
  | alloc
  | init (i : Nat)
deriving Repr, DecidableEq

/-- Apply one registry operation. -/
def applyOp (r : Registry) : RegOp → Registry
  | RegOp.alloc => (allocate_slot r).2
  | RegOp.init i => init_self i r

/-- Run a sequence of registry operations from a starting registry. -/
def runOps (r : Registry) (ops : List RegOp) : Registry :=
  ops.foldl applyOp r

/-- The sequence of indices returned by the `allocate_slot` calls in a
registry operation sequence, in call order. -/
def runAlloc : Registry → List RegOp → List Nat
  | _, [] => []
  | r, RegOp.alloc :: ops => (allocate_slot r).1 :: runAlloc (allocate_slot r).2 ops
  | r, RegOp.init i :: ops => runAlloc (init_self i r) ops

/-! ## Worker entry points -/

/-- The role of a worker thread, one per entry point declared in threading.h. -/
inductive Role
  | general
  | parallelGC
  | concurrentGC
deriving Repr, DecidableEq

/-- An observable event in a worker thread's lifecycle, following the spec
state machine Spawned → TLS-Initializing → Barrier-Waiting → Role-Running. -/
inductive WorkerEvent
  | constructTLS (tid : Int)
  | publishTLS (tid : Int)
  | barrierPass
  | roleStart (r : Role)
deriving Repr, DecidableEq

/-- Modelled from the spec: the bootstrap shared verbatim by all three worker
entry points — construct the private state block, publish it into the registry,
pass the startup barrier, and only then start the role-specific loop. -/
def workerBoot (tid : Int) (r : Role) : List WorkerEvent :=
  [WorkerEvent.constructTLS tid, WorkerEvent.publishTLS tid,
   WorkerEvent.barrierPass, WorkerEvent.roleStart r]

/-- Modelled from the spec: `jl_threadfun` (declared in threading.h, body not
in src/) — the general worker body, as its trace of lifecycle events. -/
def jl_threadfun (a : jl_threadarg_t) : List WorkerEvent :=
  workerBoot a.tid Role.general

/-- Modelled from the spec: `jl_parallel_gc_threadfun` — the parallel-GC
worker body, as its trace of lifecycle events. -/
def jl_parallel_gc_threadfun (a : jl_threadarg_t) : List WorkerEvent :=
  workerBoot a.tid Role.parallelGC

/-- Modelled from the spec: `jl_concurrent_gc_threadfun` — the concurrent-GC
worker body, as its trace of lifecycle events. -/
def jl_concurrent_gc_threadfun (a : jl_threadarg_t) : List WorkerEvent :=
  workerBoot a.tid Role.concurrentGC

/-- `precedes tr e f`: in trace `tr`, every prefix containing `f` already
contains `e`, i.e. `e` happens strictly before any occurrence of `f`. -/
def precedes (tr : List WorkerEvent) (e f : WorkerEvent) : Prop :=
  ∀ n, f ∈ tr.take n → e ∈ tr.take n

/-! ## Startup barrier lifecycle -/

/-- A barrier lifecycle event: creation of the barrier object identified by
`bid`, participant `who` passing its wait, or destruction of the object.
`thread_init_done` in threading.h is such a `uv_barrier_t` object. -/
inductive BarrierEvent
  | create (bid : Nat)
  | wait (bid : Nat) (who : Nat)
  | destroy (bid : Nat)
deriving Repr, DecidableEq

/-- The barrier object a barrier event concerns. -/
def beBid : BarrierEvent → Nat
  | BarrierEvent.create b => b
  | BarrierEvent.wait b _ => b
  | BarrierEvent.destroy b => b

/-- Modelled from the spec: one spawn batch with `n` workers — the spawner
creates a fresh barrier configured for n + 1 participants, every participant
(spawner = 0, workers = 1..n) passes wait exactly once, and the spawner
destroys the barrier after all have passed. -/
def spawnBatch (bid n : Nat) : List BarrierEvent :=
  BarrierEvent.create bid ::
    ((List.range (n + 1)).map (fun w => BarrierEvent.wait bid w)
      ++ [BarrierEvent.destroy bid])

/-- Modelled from the spec: a process lifetime of successive spawn batches,
each constructing a fresh barrier object (fresh identity per batch). -/
def runBatches : Nat → List Nat → List BarrierEvent
  | _, [] => []
  | s, n :: rest => spawnBatch s n ++ runBatches (s + 1) rest

/-! ## Release/acquire handshake of the interrupt slot -/

/-- One step of the request/consume handshake: the producer's two stores
(condition first, then the target with release ordering) and the consumer's
two loads (the target with acquire ordering, then the condition). -/
inductive HSStep
  | storeCond
  | storeTarget
  | loadTarget
  | loadCond
deriving Repr, DecidableEq

/-- Shared memory of the handshake plus the consumer's observations:
`handler`/`condVal` model `jl_interrupt_handler` and
`jl_interrupt_handler_condition`; `obsTarget`/`obsCond` record what the
consumer's loads returned (none = load not yet performed). -/
structure HSState where
  handler : Option Task
  condVal : Nat
  obsTarget : Option (Option Task)
  obsCond : Option Nat
deriving Repr, DecidableEq

/-- Execute one handshake step for request parameters `T`, `c`. -/
def hsStep (T : Task) (c : Nat) (s : HSState) : HSStep → HSState
  | HSStep.storeCond => { s with condVal := c }
  | HSStep.storeTarget => { s with handler := some T }
  | HSStep.loadTarget => { s with obsTarget := some s.handler }
  | HSStep.loadCond => { s with obsCond := some s.condVal }

/-- Run an interleaving of handshake steps. -/
def hsRun (T : Task) (c : Nat) (steps : List HSStep) (s : HSState) : HSState :=
  steps.foldl (hsStep T c) s

/-- Handshake start state: no target published, arbitrary stale condition
value `d`, consumer has performed no load. -/
def hsInit (d : Nat) : HSState := ⟨none, d, none, none⟩

/-- Program order of the producer (request_interrupt): condition store, then
release store of the target. -/
def producerSteps : List HSStep := [HSStep.storeCond, HSStep.storeTarget]

/-- Program order of the consumer (check_and_consume): acquire load of the
target, then load of the condition. -/
def consumerSteps : List HSStep := [HSStep.loadTarget, HSStep.loadCond]

/-- All interleavings of two step sequences that preserve each sequence's
program order (fuelled structural recursion; the fuel is the total length). -/
def interleaveF : Nat → List HSStep → List HSStep → List (List HSStep)
  | 0, _, _ => []
  | _ + 1, [], ys => [ys]
  | _ + 1, x :: xs, [] => [x :: xs]
  | n + 1, x :: xs, y :: ys =>
      ((interleaveF n xs (y :: ys)).map (fun l => x :: l))
        ++ ((interleaveF n (x :: xs) ys).map (fun l => y :: l))

/-- All program-order-preserving interleavings of two step sequences. -/
def interleave (xs ys : List HSStep) : List (List HSStep) :=
  interleaveF (xs.length + ys.length) xs ys

/-! ## Helper lemmas for the interrupt router -/

theorem check_none_of_sig_ne (T : Task) (s : InterruptRouter)
    (h : s.jl_global_defer_signal ≠ 0) : (check_and_consume T s).1 = none := by
  unfold check_and_consume
  rw [if_neg (fun hc => h hc.2)]

theorem check_some_of_match (T : Task) (s : InterruptRouter)
    (hh : s.jl_interrupt_handler = some T) (h0 : s.jl_global_defer_signal = 0) :
    (check_and_consume T s).1 = some s.jl_interrupt_handler_condition := by
  unfold check_and_consume
  rw [if_pos ⟨hh, h0⟩]

theorem defer_iter_sig (n : Nat) (s : InterruptRouter) :
    (defer_interrupts^[n] s).jl_global_defer_signal = s.jl_global_defer_signal + n := by
  induction n with
  | zero => rfl
  | succ n ih =>
      rw [Function.iterate_succ_apply']
      simp only [defer_interrupts, ih]
      omega

theorem defer_iter_handler (n : Nat) (s : InterruptRouter) :
    (defer_interrupts^[n] s).jl_interrupt_handler = s.jl_interrupt_handler := by
  induction n with
  | zero => rfl
  | succ n ih => rw [Function.iterate_succ_apply']; simpa [defer_interrupts] using ih

theorem defer_iter_cond (n : Nat) (s : InterruptRouter) :
    (defer_interrupts^[n] s).jl_interrupt_handler_condition =
      s.jl_interrupt_handler_condition := by
  induction n with
  | zero => rfl
  | succ n ih => rw [Function.iterate_succ_apply']; simpa [defer_interrupts] using ih

theorem resume_iter_sig (n : Nat) (s : InterruptRouter) :
    (resume_interrupts^[n] s).jl_global_defer_signal = s.jl_global_defer_signal - n := by
  induction n with
  | zero => rfl
  | succ n ih =>
      rw [Function.iterate_succ_apply']
      simp only [resume_interrupts, ih]
      omega

theorem resume_iter_handler (n : Nat) (s : InterruptRouter) :
    (resume_interrupts^[n] s).jl_interrupt_handler = s.jl_interrupt_handler := by
  induction n with
  | zero => rfl
  | succ n ih => rw [Function.iterate_succ_apply']; simpa [resume_interrupts] using ih

theorem resume_iter_cond (n : Nat) (s : InterruptRouter) :
    (resume_interrupts^[n] s).jl_interrupt_handler_condition =
      s.jl_interrupt_handler_condition := by
  induction n with
  | zero => rfl
  | succ n ih => rw [Function.iterate_succ_apply']; simpa [resume_interrupts] using ih

/-! ## Claim theorems: interrupt router -/

/-- C1: after `request_interrupt T c`, a `check_and_consume` by the running
task T with defer-count 0 atomically clears the target and returns `c` exactly
once; a second immediate `check_and_consume` returns nothing; and a
`check_and_consume` by any task that is not the stored target returns nothing
(and leaves the state unchanged). -/
theorem C1_request_then_consume (T T2 : Task) (c : Nat) (s : InterruptRouter)
    (h0 : s.jl_global_defer_signal = 0) (hT2 : T2 ≠ T) :
    (check_and_consume T (request_interrupt T c s)).1 = some c ∧
    (check_and_consume T (check_and_consume T (request_interrupt T c s)).2).1 = none ∧
    (check_and_consume T2 (request_interrupt T c s)).1 = none ∧
    (check_and_consume T2 (request_interrupt T c s)).2 = request_interrupt T c s := by
  refine ⟨?_, ?_, ?_, ?_⟩ <;>
    simp [check_and_consume, request_interrupt, h0, Ne.symm hT2]

/-- Witness for C1 at T = 0, T2 = 1, c = 7 from the initial router state. -/
theorem C1_witness :
    (routerInit.jl_global_defer_signal = 0 ∧ (1 : Task) ≠ 0) ∧
    ((check_and_consume 0 (request_interrupt 0 7 routerInit)).1 = some 7 ∧
     (check_and_consume 0 (check_and_consume 0 (request_interrupt 0 7 routerInit)).2).1 = none ∧
     (check_and_consume 1 (request_interrupt 0 7 routerInit)).1 = none ∧
     (check_and_consume 1 (request_interrupt 0 7 routerInit)).2 = request_interrupt 0 7 routerInit) :=
  ⟨⟨rfl, by decide⟩, C1_request_then_consume 0 1 7 routerInit rfl (by decide)⟩

/-- C2 (counterexample): the defer-count is not per-thread — thread 0
performing `defer_interrupts` changes the defer-count of thread 1, because
threading.h declares a single global `_Atomic(int) jl_global_defer_signal`
rather than a thread-local counter. -/
theorem C2_counterexample :
    defer_count_of 1 (defer_interrupts_by 0 routerInit) ≠ defer_count_of 1 routerInit := by
  decide

/-- C2 (amended): the defer-count is one process-wide counter shared by every
thread: all threads observe the same count, any thread's defer/resume changes
the count every thread observes (in strictly nested fashion: a resume undoes
the matching defer), and while it is positive `check_and_consume` delivers to
no task at all. -/
theorem C2_shared_defer_count (t t2 : Nat) (s : InterruptRouter) :
    defer_count_of t s = defer_count_of t2 s ∧
    defer_count_of t (defer_interrupts_by t2 s) = defer_count_of t s + 1 ∧
    defer_count_of t (resume_interrupts_by t2 (defer_interrupts_by t2 s)) =
      defer_count_of t s ∧
    ∀ T : Task, (check_and_consume T (defer_interrupts_by t2 s)).1 = none := by
  refine ⟨rfl, rfl, rfl, fun T => ?_⟩
  exact check_none_of_sig_ne T _ (by simp [defer_interrupts_by, defer_interrupts])

/-- C5: with a pending interrupt for T and initial defer-count 0, after D
defers the interrupt is not delivered at any intermediate nesting depth j with
1 ≤ j ≤ D, nor after only k < D resumes (defer-count D - k > 0); delivery
happens exactly when the D-th matching resume returns the count to 0. -/
theorem C5_nested_defer_resume (D k j : Nat) (s : InterruptRouter) (T : Task) (c : Nat)
    (hD : 1 ≤ D) (h0 : s.jl_global_defer_signal = 0)
    (hk : k < D) (hj1 : 1 ≤ j) (hj2 : j ≤ D) :
    (check_and_consume T (defer_interrupts^[j] (request_interrupt T c s))).1 = none ∧
    (check_and_consume T
      (resume_interrupts^[k] (defer_interrupts^[D] (request_interrupt T c s)))).1 = none ∧
    (resume_interrupts^[k]
      (defer_interrupts^[D] (request_interrupt T c s))).jl_global_defer_signal = D - k ∧
    (check_and_consume T
      (resume_interrupts^[D] (defer_interrupts^[D] (request_interrupt T c s)))).1 = some c ∧
    (resume_interrupts^[D]
      (defer_interrupts^[D] (request_interrupt T c s))).jl_global_defer_signal = 0 := by
  have hreq_sig : (request_interrupt T c s).jl_global_defer_signal = 0 := h0
  have hsig_j : (defer_interrupts^[j] (request_interrupt T c s)).jl_global_defer_signal = j := by
    rw [defer_iter_sig, hreq_sig]; omega
  have hsig_D : (defer_interrupts^[D] (request_interrupt T c s)).jl_global_defer_signal = D := by
    rw [defer_iter_sig, hreq_sig]; omega
  have hsig_k : (resume_interrupts^[k]
      (defer_interrupts^[D] (request_interrupt T c s))).jl_global_defer_signal = D - k := by
    rw [resume_iter_sig, hsig_D]
  have hsig_DD : (resume_interrupts^[D]
      (defer_interrupts^[D] (request_interrupt T c s))).jl_global_defer_signal = 0 := by
    rw [resume_iter_sig, hsig_D]; omega
  refine ⟨?_, ?_, hsig_k, ?_, hsig_DD⟩
  · exact check_none_of_sig_ne T _ (by rw [hsig_j]; omega)
  · exact check_none_of_sig_ne T _ (by rw [hsig_k]; omega)
  · have hh : (resume_interrupts^[D]
        (defer_interrupts^[D] (request_interrupt T c s))).jl_interrupt_handler = some T := by
      rw [resume_iter_handler, defer_iter_handler]; rfl
    have hc : (resume_interrupts^[D]
        (defer_interrupts^[D] (request_interrupt T c s))).jl_interrupt_handler_condition = c := by
      rw [resume_iter_cond, defer_iter_cond]; rfl
    rw [check_some_of_match T _ hh hsig_DD, hc]

/-- Witness for C5 at D = 2, k = 1, j = 1, T = 0, c = 7 from the initial
router state. -/
theorem C5_witness :
    (1 ≤ 2 ∧ routerInit.jl_global_defer_signal = 0 ∧ 1 < 2 ∧ 1 ≤ 1 ∧ 1 ≤ 2) ∧
    ((check_and_consume 0 (defer_interrupts^[1] (request_interrupt 0 7 routerInit))).1 = none ∧
     (check_and_consume 0
       (resume_interrupts^[1] (defer_interrupts^[2] (request_interrupt 0 7 routerInit)))).1 = none ∧
     (resume_interrupts^[1]
       (defer_interrupts^[2] (request_interrupt 0 7 routerInit))).jl_global_defer_signal = 2 - 1 ∧
     (check_and_consume 0
       (resume_interrupts^[2] (defer_interrupts^[2] (request_interrupt 0 7 routerInit)))).1 = some 7 ∧
     (resume_interrupts^[2]
       (defer_interrupts^[2] (request_interrupt 0 7 routerInit))).jl_global_defer_signal = 0) :=
  ⟨⟨by decide, rfl, by decide, by decide, by decide⟩,
   C5_nested_defer_resume 2 1 1 routerInit 0 7 (by decide) rfl (by decide) (by decide) (by decide)⟩

/-- C10: the interrupt router is a single process-wide slot — a second
`request_interrupt` with no intervening consumption overwrites both the stored
target and the stored condition (the state is exactly as if only the second
request had happened, so the first pending interrupt is lost), and at most one
interrupt is pending process-wide in any router state. -/
theorem C10_single_slot_overwrite (T1 T2 : Task) (c1 c2 : Nat) (s : InterruptRouter) :
    request_interrupt T2 c2 (request_interrupt T1 c1 s) = request_interrupt T2 c2 s ∧
    (request_interrupt T2 c2 (request_interrupt T1 c1 s)).jl_interrupt_handler = some T2 ∧
    (request_interrupt T2 c2
      (request_interrupt T1 c1 s)).jl_interrupt_handler_condition = c2 ∧
    pendingCount s ≤ 1 := by
  refine ⟨rfl, rfl, rfl, ?_⟩
  unfold pendingCount
  split <;> omega

/-! ## Helper lemmas for the registry -/

theorem runOps_cons (r : Registry) (op : RegOp) (ops : List RegOp) :
    runOps r (op :: ops) = runOps (applyOp r op) ops := rfl

theorem lookup_alloc (i : Nat) (r : Registry) :
    lookup i (applyOp r RegOp.alloc) = lookup i r := rfl

theorem lookup_init (i j : Nat) (r : Registry) :
    lookup i (applyOp r (RegOp.init j)) =
      if i = j then some (jl_init_threadtls (Int.ofNat j)) else lookup i r := rfl

theorem lookup_runOps_inv (ops : List RegOp) (r : Registry)
    (h : ∀ i, lookup i r = none ∨ lookup i r = some (jl_init_threadtls (Int.ofNat i))) :
    ∀ i, lookup i (runOps r ops) = none ∨
      lookup i (runOps r ops) = some (jl_init_threadtls (Int.ofNat i)) := by
  induction ops generalizing r with
  | nil => exact h
  | cons op ops ih =>
      rw [runOps_cons]
      refine ih _ ?_
      intro i
      cases op with
      | alloc => rw [lookup_alloc]; exact h i
      | init j =>
          rw [lookup_init]
          by_cases hij : i = j
          · subst hij; rw [if_pos rfl]; right; rfl
          · rw [if_neg hij]; exact h i

theorem lookup_runOps_none (ops : List RegOp) (r : Registry) (i : Nat)
    (hmem : RegOp.init i ∉ ops) (h : lookup i r = none) :
    lookup i (runOps r ops) = none := by
  induction ops generalizing r with
  | nil => exact h
  | cons op ops ih =>
      rw [runOps_cons]
      have hop : op ≠ RegOp.init i := fun he => hmem (he ▸ List.mem_cons_self op ops)
      have hrest : RegOp.init i ∉ ops := fun he => hmem (List.mem_cons_of_mem op he)
      refine ih _ hrest ?_
      cases op with
      | alloc => rw [lookup_alloc]; exact h
      | init j =>
          rw [lookup_init]
          have hij : i ≠ j := fun he => hop (by rw [he])
          rw [if_neg hij]
          exact h

theorem runAlloc_cons_alloc (r : Registry) (ops : List RegOp) :
    runAlloc r (RegOp.alloc :: ops) =
      r.next_tid :: runAlloc (allocate_slot r).2 ops := rfl

theorem runAlloc_cons_init (r : Registry) (i : Nat) (ops : List RegOp) :
    runAlloc r (RegOp.init i :: ops) = runAlloc (init_self i r) ops := rfl

theorem alloc_next_tid (r : Registry) : (allocate_slot r).2.next_tid = r.next_tid + 1 := rfl

theorem init_next_tid (i : Nat) (r : Registry) : (init_self i r).next_tid = r.next_tid := rfl

theorem runAlloc_lb (ops : List RegOp) :
    ∀ (r : Registry), ∀ x ∈ runAlloc r ops, r.next_tid ≤ x := by
  induction ops with
  | nil => intro r x hx; simp [runAlloc] at hx
  | cons op ops ih =>
      intro r x hx
      cases op with
      | alloc =>
          rw [runAlloc_cons_alloc] at hx
          rcases List.mem_cons.mp hx with rfl | hx
          · exact Nat.le_refl _
          · have h1 := ih (allocate_slot r).2 x hx
            rw [alloc_next_tid] at h1
            omega
      | init i =>
          rw [runAlloc_cons_init] at hx
          have h1 := ih (init_self i r) x hx
          rwa [init_next_tid] at h1

theorem runAlloc_pairwise (ops : List RegOp) :
    ∀ (r : Registry), List.Pairwise (· < ·) (runAlloc r ops) := by
  induction ops with
  | nil => intro r; simp [runAlloc]
  | cons op ops ih =>
      intro r
      cases op with
      | alloc =>
          rw [runAlloc_cons_alloc]
          refine List.pairwise_cons.mpr ⟨?_, ih _⟩
          intro x hx
          have h1 := runAlloc_lb ops (allocate_slot r).2 x hx
          rw [alloc_next_tid] at h1
          omega
      | init i =>
          rw [runAlloc_cons_init]
          exact ih _

/-! ## Claim theorems: registry -/

/-- C3: in every reachable registry state, `lookup i` returns either NULL
(none) — in particular whenever the owning worker has not yet published slot i
— or the fully-constructed state block `jl_init_threadtls i`; no
partially-constructed block is ever observable through the registry. -/
theorem C3_lookup_null_or_constructed (ops : List RegOp) (i : Nat) :
    (lookup i (runOps registryInit ops) = none ∨
     lookup i (runOps registryInit ops) = some (jl_init_threadtls (Int.ofNat i))) ∧
    (RegOp.init i ∉ ops → lookup i (runOps registryInit ops) = none) :=
  ⟨lookup_runOps_inv ops registryInit (fun _ => Or.inl rfl) i,
   fun hmem => lookup_runOps_none ops registryInit i hmem rfl⟩

/-- Witness for C3: after a single slot allocation and no `init_self` for
slot 0, `lookup 0` returns NULL. -/
theorem C3_witness :
    RegOp.init 0 ∉ [RegOp.alloc] ∧ lookup 0 (runOps registryInit [RegOp.alloc]) = none :=
  ⟨by decide, (C3_lookup_null_or_constructed [RegOp.alloc] 0).2 (by decide)⟩

/-- C8: over any sequence of registry operations in the process lifetime, the
indices returned by successive `allocate_slot` calls are strictly increasing
in call order, hence pairwise distinct — no index is ever handed out twice. -/
theorem C8_alloc_indices_monotone (ops : List RegOp) :
    List.Pairwise (· < ·) (runAlloc registryInit ops) ∧
    (runAlloc registryInit ops).Nodup :=
  ⟨runAlloc_pairwise ops registryInit,
   (runAlloc_pairwise ops registryInit).imp fun h => Nat.ne_of_lt h⟩

/-! ## Claim theorems: worker entry points and thread indices -/

theorem workerBoot_ordered (tid : Int) (r : Role) :
    precedes (workerBoot tid r) (WorkerEvent.constructTLS tid) (WorkerEvent.publishTLS tid) ∧
    precedes (workerBoot tid r) (WorkerEvent.publishTLS tid) WorkerEvent.barrierPass ∧
    precedes (workerBoot tid r) WorkerEvent.barrierPass (WorkerEvent.roleStart r) ∧
    WorkerEvent.roleStart r ∈ workerBoot tid r := by
  refine ⟨?_, ?_, ?_, by simp [workerBoot]⟩ <;>
  · intro n h
    rcases n with _ | _ | _ | _ | n <;> simp_all [workerBoot, precedes]

/-- C6: for every role's entry point (jl_threadfun, jl_parallel_gc_threadfun,
jl_concurrent_gc_threadfun), the worker constructs its private state block
before publishing it into the registry, publishes it before passing the shared
startup barrier, and passes the barrier before any role logic starts; the role
loop does start. -/
theorem C6_bootstrap_order (a : jl_threadarg_t) :
    (precedes (jl_threadfun a) (WorkerEvent.constructTLS a.tid) (WorkerEvent.publishTLS a.tid) ∧
     precedes (jl_threadfun a) (WorkerEvent.publishTLS a.tid) WorkerEvent.barrierPass ∧
     precedes (jl_threadfun a) WorkerEvent.barrierPass (WorkerEvent.roleStart Role.general) ∧
     WorkerEvent.roleStart Role.general ∈ jl_threadfun a) ∧
    (precedes (jl_parallel_gc_threadfun a)
        (WorkerEvent.constructTLS a.tid) (WorkerEvent.publishTLS a.tid) ∧
     precedes (jl_parallel_gc_threadfun a) (WorkerEvent.publishTLS a.tid) WorkerEvent.barrierPass ∧
     precedes (jl_parallel_gc_threadfun a)
        WorkerEvent.barrierPass (WorkerEvent.roleStart Role.parallelGC) ∧
     WorkerEvent.roleStart Role.parallelGC ∈ jl_parallel_gc_threadfun a) ∧
    (precedes (jl_concurrent_gc_threadfun a)
        (WorkerEvent.constructTLS a.tid) (WorkerEvent.publishTLS a.tid) ∧
     precedes (jl_concurrent_gc_threadfun a)
        (WorkerEvent.publishTLS a.tid) WorkerEvent.barrierPass ∧
     precedes (jl_concurrent_gc_threadfun a)
        WorkerEvent.barrierPass (WorkerEvent.roleStart Role.concurrentGC) ∧
     WorkerEvent.roleStart Role.concurrentGC ∈ jl_concurrent_gc_threadfun a) :=
  ⟨workerBoot_ordered a.tid Role.general,
   workerBoot_ordered a.tid Role.parallelGC,
   workerBoot_ordered a.tid Role.concurrentGC⟩

/-- A concrete startup descriptor (tid 0, barrier 0, NULL payload). -/
def arg0 : jl_threadarg_t := ⟨0, by decide, 0, 0⟩

/-- Witness for C6: on the concrete descriptor `arg0`, the general worker's
role loop does start (and by C6_bootstrap_order only after TLS and barrier). -/
theorem C6_witness : WorkerEvent.roleStart Role.general ∈ jl_threadfun arg0 :=
  (C6_bootstrap_order arg0).1.2.2.2

/-- C9: thread indices are int16_t throughout the interface — the tid of every
startup descriptor lies in the int16_t range, every 0-based (nonnegative) tid
lies in {0, ..., 32767}, and that set has exactly 32768 elements, bounding the
distinct worker indices assignable over the process lifetime. -/
theorem C9_int16_indices (a : jl_threadarg_t) :
    int16_range a.tid ∧
    (0 ≤ a.tid → a.tid ∈ Finset.Icc (0 : Int) 32767) ∧
    (Finset.Icc (0 : Int) 32767).card = 32768 := by
  refine ⟨a.tid_in_range, fun h => ?_, ?_⟩
  · have hr := a.tid_in_range.2
    rw [Finset.mem_Icc]
    omega
  · rw [Int.card_Icc]
    rfl

/-- Witness for C9: the descriptor `arg0` has a nonnegative tid, which
therefore lies in {0, ..., 32767}. -/
theorem C9_witness : (0 : Int) ≤ arg0.tid ∧ arg0.tid ∈ Finset.Icc (0 : Int) 32767 :=
  ⟨by decide, (C9_int16_indices arg0).2.1 (by decide)⟩

/-! ## Helper lemmas for the barrier lifecycle -/

theorem mem_spawnBatch_bid {e : BarrierEvent} {bid n : Nat} (h : e ∈ spawnBatch bid n) :
    beBid e = bid := by
  simp only [spawnBatch, List.mem_cons, List.mem_append, List.mem_map,
    List.mem_range, List.not_mem_nil, or_false] at h
  rcases h with rfl | ⟨w, _, rfl⟩ | rfl <;> rfl

theorem runBatches_bid_lb {e : BarrierEvent} (sizes : List Nat) (s : Nat)
    (h : e ∈ runBatches s sizes) : s ≤ beBid e := by
  induction sizes generalizing s with
  | nil => simp [runBatches] at h
  | cons n rest ih =>
      rw [runBatches] at h
      rcases List.mem_append.mp h with h | h
      · rw [mem_spawnBatch_bid h]
      · have := ih (s + 1) h
        omega

theorem runBatches_count_zero {e : BarrierEvent} (sizes : List Nat) (s : Nat)
    (h : beBid e < s) : (runBatches s sizes).count e = 0 := by
  rw [List.count_eq_zero]
  intro hmem
  have := runBatches_bid_lb sizes s hmem
  omega

theorem spawnBatch_count_wait (bid n w : Nat) :
    (spawnBatch bid n).count (BarrierEvent.wait bid w) = if w ≤ n then 1 else 0 := by
  have hinj : Function.Injective (fun x : Nat => BarrierEvent.wait bid x) := by
    intro a b hab
    simpa using hab
  have hmap := List.count_map_of_injective (List.range (n + 1))
    (fun x : Nat => BarrierEvent.wait bid x) hinj w
  simp only at hmap
  unfold spawnBatch
  rw [List.count_cons_of_ne (by simp), List.count_append, hmap]
  by_cases hw : w ≤ n
  · rw [if_pos hw,
      List.count_eq_one_of_mem (List.nodup_range _) (List.mem_range.mpr (by omega)),
      List.count_eq_zero_of_not_mem (by simp)]
  · rw [if_neg hw,
      List.count_eq_zero_of_not_mem (by rw [List.mem_range]; omega),
      List.count_eq_zero_of_not_mem (by simp)]

theorem runBatches_count_wait (sizes : List Nat) :
    ∀ (s k n w : Nat), sizes.get? k = some n → w ≤ n →
      (runBatches s sizes).count (BarrierEvent.wait (s + k) w) = 1 := by
  induction sizes with
  | nil => intro s k n w hk _; simp at hk
  | cons m rest ih =>
      intro s k n w hk hw
      cases k with
      | zero =>
          rw [List.get?_cons_zero, Option.some.injEq] at hk
          subst hk
          rw [runBatches, List.count_append, Nat.add_zero, spawnBatch_count_wait, if_pos hw,
            runBatches_count_zero rest (s + 1) (by simp only [beBid]; omega)]
      | succ k2 =>
          rw [List.get?_cons_succ] at hk
          rw [runBatches, List.count_append,
            List.count_eq_zero_of_not_mem (fun hmem => by
              have hb := mem_spawnBatch_bid hmem
              simp only [beBid] at hb
              omega)]
          have heq : s + (k2 + 1) = (s + 1) + k2 := by omega
          rw [heq, ih (s + 1) k2 n w hk hw]

theorem runBatches_count_wait_le_one (sizes : List Nat) :
    ∀ (s bid w : Nat), (runBatches s sizes).count (BarrierEvent.wait bid w) ≤ 1 := by
  induction sizes with
  | nil => intro s bid w; simp [runBatches]
  | cons m rest ih =>
      intro s bid w
      rw [runBatches, List.count_append]
      by_cases hbid : bid = s
      · subst hbid
        rw [runBatches_count_zero rest (bid + 1) (by simp only [beBid]; omega),
          spawnBatch_count_wait]
        split <;> omega
      · rw [List.count_eq_zero_of_not_mem (fun hmem => by
          have hb := mem_spawnBatch_bid hmem
          simp only [beBid] at hb
          exact hbid hb)]
        simpa using ih (s + 1) bid w

theorem spawnBatch_count_create (bid bid2 n : Nat) :
    (spawnBatch bid2 n).count (BarrierEvent.create bid) = if bid = bid2 then 1 else 0 := by
  by_cases h : bid = bid2
  · subst h
    rw [if_pos rfl]
    unfold spawnBatch
    rw [List.count_cons_self, List.count_eq_zero_of_not_mem (by simp)]
  · rw [if_neg h]
    unfold spawnBatch
    rw [List.count_cons_of_ne (by simp [h]), List.count_eq_zero_of_not_mem (by simp)]

theorem runBatches_count_create_le_one (sizes : List Nat) :
    ∀ (s bid : Nat), (runBatches s sizes).count (BarrierEvent.create bid) ≤ 1 := by
  induction sizes with
  | nil => intro s bid; simp [runBatches]
  | cons m rest ih =>
      intro s bid
      rw [runBatches, List.count_append, spawnBatch_count_create]
      by_cases h : bid = s
      · rw [if_pos h,
          runBatches_count_zero rest (s + 1) (by simp only [beBid]; omega)]
      · rw [if_neg h]
        simpa using ih (s + 1) bid

theorem spawnBatch_shape (bid n : Nat) :
    ∃ mid, spawnBatch bid n = BarrierEvent.create bid :: mid ++ [BarrierEvent.destroy bid] ∧
      (∀ e ∈ mid, ∃ w, w ≤ n ∧ e = BarrierEvent.wait bid w) ∧
      (∀ w, w ≤ n → BarrierEvent.wait bid w ∈ mid) := by
  refine ⟨(List.range (n + 1)).map (fun w => BarrierEvent.wait bid w), rfl, ?_, ?_⟩
  · intro e he
    rw [List.mem_map] at he
    obtain ⟨w, hw, rfl⟩ := he
    rw [List.mem_range] at hw
    exact ⟨w, by omega, rfl⟩
  · intro w hw
    exact List.mem_map.mpr ⟨w, List.mem_range.mpr (by omega), rfl⟩

/-! ## Claim theorem: barrier single-use lifecycle -/

/-- C4: over any sequence of spawn batches, each batch uses a freshly
constructed barrier (no barrier identity is created twice), every participant
of a batch (spawner and each worker) passes wait on that batch's barrier
exactly once, no participant ever passes any barrier twice, and within a batch
the spawner creates the barrier before any participant waits and destroys it
after all participants have passed. -/
theorem C4_barrier_single_use (sizes : List Nat) :
    (∀ k n w, sizes.get? k = some n → w ≤ n →
      (runBatches 0 sizes).count (BarrierEvent.wait k w) = 1) ∧
    (∀ bid w, (runBatches 0 sizes).count (BarrierEvent.wait bid w) ≤ 1) ∧
    (∀ bid, (runBatches 0 sizes).count (BarrierEvent.create bid) ≤ 1) ∧
    (∀ bid n, ∃ mid,
      spawnBatch bid n = BarrierEvent.create bid :: mid ++ [BarrierEvent.destroy bid] ∧
      (∀ e ∈ mid, ∃ w, w ≤ n ∧ e = BarrierEvent.wait bid w) ∧
      (∀ w, w ≤ n → BarrierEvent.wait bid w ∈ mid)) := by
  refine ⟨?_, ?_, ?_, fun bid n => spawnBatch_shape bid n⟩
  · intro k n w hk hw
    have h := runBatches_count_wait sizes 0 k n w hk hw
    rwa [Nat.zero_add] at h
  · intro bid w
    exact runBatches_count_wait_le_one sizes 0 bid w
  · intro bid
    exact runBatches_count_create_le_one sizes 0 bid

/-- Witness for C4 on a single batch of one worker: the spawner (participant
0) passes the batch's barrier exactly once. -/
theorem C4_witness :
    (([1] : List Nat).get? 0 = some 1 ∧ 0 ≤ 1) ∧
    (runBatches 0 [1]).count (BarrierEvent.wait 0 0) = 1 :=
  ⟨⟨rfl, by decide⟩, (C4_barrier_single_use [1]).1 0 1 0 rfl (by decide)⟩

/-! ## Claim theorem: release/acquire interrupt handshake -/

/-- C7: the request/consume handshake is ordered — the producer stores the
condition before release-storing the target, and the consumer acquire-loads
the target before loading the condition; in every program-order-preserving
interleaving of the two, a consumer that observes task T as the stored target
also observes the condition value c of that request, never the stale initial
value d. -/
theorem C7_handshake_ordered (T : Task) (c d : Nat) (steps : List HSStep)
    (hmem : steps ∈ interleave producerSteps consumerSteps)
    (hobs : (hsRun T c steps (hsInit d)).obsTarget = some (some T)) :
    (hsRun T c steps (hsInit d)).obsCond = some c := by
  have h6 : interleave producerSteps consumerSteps =
      [[HSStep.storeCond, HSStep.storeTarget, HSStep.loadTarget, HSStep.loadCond],
       [HSStep.storeCond, HSStep.loadTarget, HSStep.storeTarget, HSStep.loadCond],
       [HSStep.storeCond, HSStep.loadTarget, HSStep.loadCond, HSStep.storeTarget],
       [HSStep.loadTarget, HSStep.storeCond, HSStep.storeTarget, HSStep.loadCond],
       [HSStep.loadTarget, HSStep.storeCond, HSStep.loadCond, HSStep.storeTarget],
       [HSStep.loadTarget, HSStep.loadCond, HSStep.storeCond, HSStep.storeTarget]] := by
    decide
  rw [h6] at hmem
  simp only [List.mem_cons, List.not_mem_nil, or_false] at hmem
  rcases hmem with rfl | rfl | rfl | rfl | rfl | rfl <;>
    simp_all [hsRun, hsStep, hsInit]

/-- Witness for C7 on the fully-sequential interleaving with T = 0, c = 7 and
stale initial condition 3. -/
theorem C7_witness :
    ([HSStep.storeCond, HSStep.storeTarget, HSStep.loadTarget, HSStep.loadCond]
        ∈ interleave producerSteps consumerSteps ∧
     (hsRun 0 7 [HSStep.storeCond, HSStep.storeTarget, HSStep.loadTarget, HSStep.loadCond]
        (hsInit 3)).obsTarget = some (some 0)) ∧
    (hsRun 0 7 [HSStep.storeCond, HSStep.storeTarget, HSStep.loadTarget, HSStep.loadCond]
        (hsInit 3)).obsCond = some 7 :=
  ⟨⟨by decide, by decide⟩,
   C7_handshake_ordered 0 7 3
     [HSStep.storeCond, HSStep.storeTarget, HSStep.loadTarget, HSStep.loadCond]
     (by decide) (by decide)⟩

end Threading
